import Mathlib

/-! A shallow embedding of `src/log.c`.

The logger keeps one static record `L` and writes to two streams, `stderr`
and the stream stored in `L.fp`.  The embedding passes `L` and the sequence of
observable events (lock callback invocations, writes, flushes) explicitly.

Conventions of the embedding

* a pointer is its address, `NULL` is `0`; `if (p)` is `p ≠ NULL`;
* a C string is the list of its characters before the terminating NUL;
* `int` values are integers (no arithmetic is performed on them);
* the one-bit bit-fields `quiet` and `fileinfo` are booleans;
* libc is a parameter: what `strftime` would produce for a pattern at the
  captured local time, and the text `vfprintf` produces for the caller's
  `fmt, ...` (passed as `msg`);
* an out-of-bounds read of `level_names` / `level_colors` is undefined
  behaviour: the call then has no result (`none`).
-/

namespace LogC

/-! ## Data model -/

abbrev Ptr := Nat

/-- The null pointer. -/
def NULL : Ptr := 0

abbrev CStr := List Char

/-- Modelled from the spec: the level enumeration of `log.h` (not under `src/`),
`TRACE, DEBUG, INFO, WARN, ERROR, FATAL` with index = level. -/
def LOG_TRACE : Int := 0

/-- Modelled from the spec: second enumerator of the level enumeration of `log.h`. -/
def LOG_DEBUG : Int := 1

/-- Modelled from the spec: third enumerator of the level enumeration of `log.h`. -/
def LOG_INFO : Int := 2

/-- Modelled from the spec: fourth enumerator of the level enumeration of `log.h`. -/
def LOG_WARN : Int := 3

/-- Modelled from the spec: fifth enumerator of the level enumeration of `log.h`. -/
def LOG_ERROR : Int := 4

/-- Modelled from the spec: sixth enumerator of the level enumeration of `log.h`. -/
def LOG_FATAL : Int := 5

/-- Source: `#define LOG_LEVEL LOG_INFO` (when not given at compile time). -/
def LOG_LEVEL : Int := LOG_INFO

/-- Source: `#define DATEFORMAT_SIZE 32` -/
def DATEFORMAT_SIZE : Nat := 32

/-- The anonymous inner struct `config` of `L`: two one-bit fields. -/
structure Config where
  quiet : Bool
  fileinfo : Bool
  deriving DecidableEq, Repr

/-- The static struct `L`. -/
structure LState where
  udata : Ptr
  lock : Ptr
  fp : Ptr
  dateformat : CStr
  level : Int
  config : Config
  deriving DecidableEq, Repr

/-- The stream a write goes through: `stderr`, or the handle held in `L.fp`. -/
inductive Dest where
  | stderr : Dest
  | fp : Ptr → Dest
  deriving DecidableEq, Repr

/-- Observable events of the logger, in program order. -/
inductive Event where
  | call : Ptr → Ptr → Int → Event
  | write : Dest → CStr → Event
  | flush : Dest → Event
  deriving DecidableEq, Repr

/-- Program state: the static `L` and the events produced so far. -/
structure World where
  L : LState
  trace : List Event
  deriving DecidableEq, Repr

/-- Compile-time and libc parameters.
`LOG_USE_COLOR` : whether the macro is defined.
`expand fmt` : the characters `strftime` generates for pattern `fmt` at the
local time captured by `time`/`localtime`, before any size limit applies.
`garbage` : the indeterminate buffer contents left by a `strftime` call that
returns 0. -/
structure Env where
  LOG_USE_COLOR : Bool
  expand : CStr → CStr
  garbage : CStr

/-- The initial value of `L`. -/
def L_init : LState :=
  { udata := NULL, lock := NULL, fp := NULL,
    dateformat := "%d-%m-%Y %H:%M:%S".toList,
    level := LOG_LEVEL,
    config := { quiet := false, fileinfo := false } }

/-! ## Tables -/

/-- Source: `static const char *level_names[]` -/
def level_names : List CStr :=
  ["TRACE".toList, "DEBUG".toList, "INFO".toList, "WARN".toList, "ERROR".toList, "FATAL".toList]

/-- Source: `static const char *level_colors[]` -/
def level_colors : List CStr :=
  ["\x1b[94m".toList, "\x1b[36m".toList, "\x1b[32m".toList, "\x1b[33m".toList,
   "\x1b[31m".toList, "\x1b[35m".toList]

/-- Array subscript `tbl[i]` with an `int` index; `none` outside the array. -/
def index {α : Type} (tbl : List α) (i : Int) : Option α :=
  if 0 ≤ i then tbl.get? i.toNat else none

/-! ## libc: formatted output and `strftime` -/

/-- A variadic argument of `fprintf`. -/
inductive Arg where
  | str : CStr → Arg
  | int : Int → Arg

/-- Conversion `%d`. -/
def fmt_d (i : Int) : CStr := (toString i).toList

/-- Conversion `%-5s`: left-justified in a field of width 5. -/
def pad5 (s : CStr) : CStr := s ++ List.replicate (5 - s.length) ' '

/-- The text produced by a `printf`-style format, for the conversions that
occur in `log.c`: `%s`, `%-5s` and `%d`. -/
def vformat : CStr → List Arg → CStr
  | '%' :: 's' :: rest, Arg.str s :: args => s ++ vformat rest args
  | '%' :: '-' :: '5' :: 's' :: rest, Arg.str s :: args => pad5 s ++ vformat rest args
  | '%' :: 'd' :: rest, Arg.int i :: args => fmt_d i ++ vformat rest args
  | c :: rest, args => c :: vformat rest args
  | [], _ => []

/-- Source: `fprintf(dest, format, args...)` -/
def fprintf (w : World) (dest : Dest) (format : CStr) (args : List Arg) : World :=
  { w with trace := w.trace ++ [Event.write dest (vformat format args)] }

/-- Source: `vfprintf(dest, fmt, args)`, where `msg` is the text of `fmt` with `args`. -/
def vfprintf (w : World) (dest : Dest) (msg : CStr) : World :=
  { w with trace := w.trace ++ [Event.write dest msg] }

/-- Source: `fflush(dest)` -/
def fflush (w : World) (dest : Dest) : World :=
  { w with trace := w.trace ++ [Event.flush dest] }

/-- Source: `strftime(buf, max, format, lt)`: the return value and the buffer contents.
When the generated characters and the terminating NUL fit in `max` bytes the
count of characters is returned; otherwise 0 is returned and the contents are
indeterminate. -/
def strftime (env : Env) (max : Nat) (format : CStr) : Nat × CStr :=
  let r := env.expand format
  if r.length + 1 ≤ max then (r.length, r) else (0, env.garbage)

/-- The C string held by `buf` after `buf[n] = 0`, for `(n, buf)` as returned
by `strftime`. -/
def terminated (r : Nat × CStr) : CStr := r.2.take r.1

/-! ## log.c -/

/-- Source: `static void lock(void)` -/
def lock (w : World) : World :=
  if w.L.lock ≠ NULL then
    { w with trace := w.trace ++ [Event.call w.L.lock w.L.udata 1] }
  else w

/-- Source: `static void unlock(void)` -/
def unlock (w : World) : World :=
  if w.L.lock ≠ NULL then
    { w with trace := w.trace ++ [Event.call w.L.lock w.L.udata 0] }
  else w

/-- Source: `static void _log(FILE *dest, char *date, int level, const char *file, int line)` -/
def _log (w : World) (dest : Dest) (date : CStr) (level : Int) (file : CStr) (line : Int) :
    Option World :=
  match index level_names level with
  | none => none
  | some name =>
    if w.L.config.fileinfo then
      some (fprintf w dest "%s %-5s %s:%d: ".toList
        [Arg.str date, Arg.str name, Arg.str file, Arg.int line])
    else
      some (fprintf w dest "%s %-5s: ".toList [Arg.str date, Arg.str name])

/-- Source: `void log_set_udata(void *udata)` -/
def log_set_udata (w : World) (udata : Ptr) : World :=
  { w with L := { w.L with udata := udata } }

/-- Source: `void log_set_lock(log_LockFn fn)` -/
def log_set_lock (w : World) (fn : Ptr) : World :=
  { w with L := { w.L with lock := fn } }

/-- Source: `void log_set_fp(FILE *fp)` -/
def log_set_fp (w : World) (fp : Ptr) : World :=
  { w with L := { w.L with fp := fp } }

/-- Source: `void log_set_level(int level)` -/
def log_set_level (w : World) (level : Int) : World :=
  { w with L := { w.L with level := level } }

/-- Source: `void log_set_quiet(int enable)` -/
def log_set_quiet (w : World) (enable : Int) : World :=
  { w with L := { w.L with config := { w.L.config with quiet := if enable ≠ 0 then true else false } } }

/-- Source: `void log_set_fileinfo(int enable)` -/
def log_set_fileinfo (w : World) (enable : Int) : World :=
  { w with L := { w.L with config := { w.L.config with fileinfo := if enable ≠ 0 then true else false } } }

/-- Source: `strlen` -/
def strlen (s : CStr) : Nat := s.length

/-- Source: `int log_set_dateformat(char *fmt)`: the return value and the state after. -/
def log_set_dateformat (w : World) (fmt : CStr) : Int × World :=
  if strlen fmt ≥ DATEFORMAT_SIZE then
    (-1, w)
  else
    (0, { w with L := { w.L with dateformat := fmt } })

/-- The block `/* Log to stderr */` of `log_log`. -/
def log_log_stderr (env : Env) (w : World) (level : Int) (file : CStr) (line : Int)
    (msg : CStr) : Option World :=
  if !w.L.config.quiet then
    let buf := terminated (strftime env 16 w.L.dateformat)
    let w1 : Option World :=
      if env.LOG_USE_COLOR then
        match index level_colors level, index level_names level with
        | some color, some name =>
          some (fprintf w Dest.stderr "%s\t%s%-5s\t\x1b[0m \x1b[90m%s:%d:\x1b[0m\t".toList
            [Arg.str buf, Arg.str color, Arg.str name, Arg.str file, Arg.int line])
        | _, _ => none
      else
        match index level_names level with
        | some name =>
          some (fprintf w Dest.stderr "%s\t%-5s\t%s:%d:\t".toList
            [Arg.str buf, Arg.str name, Arg.str file, Arg.int line])
        | none => none
    match w1 with
    | none => none
    | some w1 =>
      let w2 := vfprintf w1 Dest.stderr msg
      let w3 := fprintf w2 Dest.stderr "\n".toList []
      some (fflush w3 Dest.stderr)
  else some w

/-- The block `/* Log to file */` of `log_log`. -/
def log_log_fp (env : Env) (w : World) (level : Int) (file : CStr) (line : Int)
    (msg : CStr) : Option World :=
  if w.L.fp ≠ NULL then
    let buf := terminated (strftime env 32 w.L.dateformat)
    match _log w (Dest.fp w.L.fp) buf level file line with
    | none => none
    | some w1 =>
      let w2 := vfprintf w1 (Dest.fp w.L.fp) msg
      let w3 := fprintf w2 (Dest.fp w.L.fp) "\n".toList []
      some (fflush w3 (Dest.fp w.L.fp))
  else some w

/-- Source: `void log_log(int level, const char *file, int line, const char *fmt, ...)` -/
def log_log (env : Env) (w : World) (level : Int) (file : CStr) (line : Int) (msg : CStr) :
    Option World :=
  if level < w.L.level then
    some w
  else
    let w1 := lock w
    match log_log_stderr env w1 level file line msg with
    | none => none
    | some w2 =>
      match log_log_fp env w2 level file line msg with
      | none => none
      | some w3 => some (unlock w3)

/-! ## Observations -/

/-- The bytes written through `d`, in order. -/
def written (d : Dest) : List Event → CStr
  | [] => []
  | Event.write d1 bytes :: es => if d1 = d then bytes ++ written d es else written d es
  | Event.call _ _ _ :: es => written d es
  | Event.flush _ :: es => written d es

/-- The lock callback invocations, in order. -/
def calls : List Event → List Event
  | [] => []
  | Event.call f u a :: es => Event.call f u a :: calls es
  | Event.write _ _ :: es => calls es
  | Event.flush _ :: es => calls es

/-- Deletes ANSI escape sequences (`ESC` up to and including the final `m`);
the flag tells whether the scan is inside a sequence. -/
def stripAux : Bool → CStr → CStr
  | _, [] => []
  | true, c :: cs => if c = 'm' then stripAux false cs else stripAux true cs
  | false, c :: cs => if c = '\x1b' then stripAux true cs else c :: stripAux false cs

/-- Deletes every ANSI escape sequence of a line. -/
def stripAnsi (s : CStr) : CStr := stripAux false s

/-- A fixed libc clock for the examples: the expansion `strftime` generates at
Wednesday 25 September 2024, 10:00:00 local time, for the conversions
`%A %B %d %m %Y %H %M %S %%`; every other character is copied. -/
def expandSample : CStr → CStr
  | '%' :: 'A' :: rest => "Wednesday".toList ++ expandSample rest
  | '%' :: 'B' :: rest => "September".toList ++ expandSample rest
  | '%' :: 'd' :: rest => "25".toList ++ expandSample rest
  | '%' :: 'm' :: rest => "09".toList ++ expandSample rest
  | '%' :: 'Y' :: rest => "2024".toList ++ expandSample rest
  | '%' :: 'H' :: rest => "10".toList ++ expandSample rest
  | '%' :: 'M' :: rest => "00".toList ++ expandSample rest
  | '%' :: 'S' :: rest => "00".toList ++ expandSample rest
  | '%' :: '%' :: rest => '%' :: expandSample rest
  | c :: rest => c :: expandSample rest
  | [] => []

/-- The sample libc, built without `LOG_USE_COLOR`. -/
def envPlain : Env :=
  { LOG_USE_COLOR := false, expand := expandSample, garbage := "????".toList }

/-- The sample libc, built with `LOG_USE_COLOR`. -/
def envColor : Env :=
  { LOG_USE_COLOR := true, expand := expandSample, garbage := "????".toList }

/-! ## The events of one emit, and sample inputs -/

/-- The C string a destination with a `cap`-byte buffer prints as timestamp. -/
def timestamp (env : Env) (cap : Nat) (L : LState) : CStr :=
  terminated (strftime env cap L.dateformat)

/-- The events of `lock` (flag 1) and `unlock` (flag 0). -/
def lockEvents (L : LState) (flag : Int) : List Event :=
  if L.lock ≠ NULL then [Event.call L.lock L.udata flag] else []

/-- The text of the first `fprintf` of the console block. -/
def consoleHead (env : Env) (L : LState) (name color file : CStr) (line : Int) : CStr :=
  if env.LOG_USE_COLOR then
    timestamp env 16 L ++ "\t".toList ++ color ++ pad5 name ++ "\t\x1b[0m \x1b[90m".toList
      ++ file ++ ":".toList ++ fmt_d line ++ ":\x1b[0m\t".toList
  else
    timestamp env 16 L ++ "\t".toList ++ pad5 name ++ "\t".toList ++ file ++ ":".toList
      ++ fmt_d line ++ ":".toList ++ "\t".toList

/-- The events of the console block. -/
def stderrEvents (env : Env) (L : LState) (name color file : CStr) (line : Int) (msg : CStr) :
    List Event :=
  if L.config.quiet then []
  else
    [Event.write Dest.stderr (consoleHead env L name color file line),
     Event.write Dest.stderr msg,
     Event.write Dest.stderr "\n".toList,
     Event.flush Dest.stderr]

/-- The text `_log` prints. -/
def sinkHead (env : Env) (L : LState) (name file : CStr) (line : Int) : CStr :=
  if L.config.fileinfo then
    timestamp env 32 L ++ " ".toList ++ pad5 name ++ " ".toList ++ file ++ ":".toList
      ++ fmt_d line ++ ": ".toList
  else
    timestamp env 32 L ++ " ".toList ++ pad5 name ++ ": ".toList

/-- The events of the sink block. -/
def fpEvents (env : Env) (L : LState) (name file : CStr) (line : Int) (msg : CStr) :
    List Event :=
  if L.fp ≠ NULL then
    [Event.write (Dest.fp L.fp) (sinkHead env L name file line),
     Event.write (Dest.fp L.fp) msg,
     Event.write (Dest.fp L.fp) "\n".toList,
     Event.flush (Dest.fp L.fp)]
  else []

/-- A configuration with a lock callback, user data and a sink, for the examples. -/
def sampleWorld : World :=
  { L := { udata := 11, lock := 7, fp := 9, dateformat := "2024-01-01 10:00:00".toList,
           level := LOG_INFO, config := { quiet := false, fileinfo := false } },
    trace := [] }

/-- The scenario "level WARN, quiet off, no sink, call site shown, format
`2024-01-01 10:00:00`", reached from the initial state through the setters. -/
def scenarioWorld : World :=
  (log_set_dateformat (log_set_fileinfo (log_set_level ⟨L_init, []⟩ LOG_WARN) 1)
    "2024-01-01 10:00:00".toList).2

/-- A state whose 22-character format expands to 38 characters. -/
def longWorld : World :=
  (log_set_dateformat sampleWorld "%A, %d %B %Y, %H:%M:%S".toList).2

/-- A state with the 8-character timestamp format `%H:%M:%S`. -/
def shortWorld : World := (log_set_dateformat sampleWorld "%H:%M:%S".toList).2

/-- The colored console line as the specification words it: the plain console
line with only escape sequences inserted, the color escape in front of the
padded level name, the reset after it, and `file:line:` between the gray escape
and the reset. -/
def coloredLineSpec (T color name file : CStr) (line : Int) (msg : CStr) : CStr :=
  T ++ "\t".toList ++ color ++ pad5 name ++ "\x1b[0m".toList ++ "\t".toList
    ++ "\x1b[90m".toList ++ file ++ ":".toList ++ fmt_d line ++ ":".toList ++ "\x1b[0m".toList
    ++ "\t".toList ++ msg ++ "\n".toList

/-! ## Auxiliary lemmas -/

theorem vformat_sink_fileinfo (date name file : CStr) (line : Int) :
    vformat "%s %-5s %s:%d: ".toList [Arg.str date, Arg.str name, Arg.str file, Arg.int line]
      = date ++ " ".toList ++ pad5 name ++ " ".toList ++ file ++ ":".toList ++ fmt_d line
          ++ ": ".toList := by
  simp [vformat]

theorem vformat_sink_plain (date name : CStr) :
    vformat "%s %-5s: ".toList [Arg.str date, Arg.str name]
      = date ++ " ".toList ++ pad5 name ++ ": ".toList := by
  simp [vformat]

theorem vformat_console (date name file : CStr) (line : Int) :
    vformat "%s\t%-5s\t%s:%d:\t".toList [Arg.str date, Arg.str name, Arg.str file, Arg.int line]
      = date ++ "\t".toList ++ pad5 name ++ "\t".toList ++ file ++ ":".toList ++ fmt_d line
          ++ ":".toList ++ "\t".toList := by
  simp [vformat]

theorem vformat_console_color (date color name file : CStr) (line : Int) :
    vformat "%s\t%s%-5s\t\x1b[0m \x1b[90m%s:%d:\x1b[0m\t".toList
        [Arg.str date, Arg.str color, Arg.str name, Arg.str file, Arg.int line]
      = date ++ "\t".toList ++ color ++ pad5 name ++ "\t\x1b[0m \x1b[90m".toList ++ file
          ++ ":".toList ++ fmt_d line ++ ":\x1b[0m\t".toList := by
  simp [vformat]

theorem vformat_newline : vformat "\n".toList [] = "\n".toList := by
  simp [vformat]

theorem index_level_names (level : Int) (h0 : 0 ≤ level) (h5 : level ≤ 5) :
    ∃ name, index level_names level = some name := by
  interval_cases level <;> simp [index, level_names]

theorem index_level_colors (level : Int) (h0 : 0 ≤ level) (h5 : level ≤ 5) :
    ∃ color, index level_colors level = some color := by
  interval_cases level <;> simp [index, level_colors]

theorem written_append (d : Dest) (a b : List Event) :
    written d (a ++ b) = written d a ++ written d b := by
  induction a with
  | nil => simp [written]
  | cons e es ih =>
    cases e with
    | call f u x => simpa [written] using ih
    | write d1 bytes =>
      by_cases h : d1 = d
      · simp [written, h, ih]
      · simp [written, h, ih]
    | flush d1 => simpa [written] using ih

theorem calls_append (a b : List Event) : calls (a ++ b) = calls a ++ calls b := by
  induction a with
  | nil => simp [calls]
  | cons e es ih =>
    cases e with
    | call f u x => simp [calls, ih]
    | write d1 bytes => simpa [calls] using ih
    | flush d1 => simpa [calls] using ih

theorem timestamp_fits (env : Env) (cap : Nat) (L : LState)
    (h : (env.expand L.dateformat).length < cap) :
    timestamp env cap L = env.expand L.dateformat := by
  have h1 : (env.expand L.dateformat).length + 1 ≤ cap := h
  simp [timestamp, terminated, strftime, h1]

theorem timestamp_overflow (env : Env) (cap : Nat) (L : LState)
    (h : cap ≤ (env.expand L.dateformat).length) :
    timestamp env cap L = [] := by
  have h1 : ¬ (env.expand L.dateformat).length + 1 ≤ cap := by omega
  simp [timestamp, terminated, strftime, h1]

theorem log_log_stderr_eq (env : Env) (w : World) (level : Int) (file : CStr) (line : Int)
    (msg name color : CStr) (hn : index level_names level = some name)
    (hc : index level_colors level = some color) :
    log_log_stderr env w level file line msg
      = some { w with trace := w.trace ++ stderrEvents env w.L name color file line msg } := by
  cases hq : w.L.config.quiet <;> cases hcol : env.LOG_USE_COLOR <;>
    simp [log_log_stderr, stderrEvents, consoleHead, timestamp, hq, hcol, hn, hc, fprintf,
      vfprintf, fflush, vformat]

theorem log_log_stderr_quiet (env : Env) (w : World) (level : Int) (file : CStr) (line : Int)
    (msg : CStr) (hq : w.L.config.quiet = true) :
    log_log_stderr env w level file line msg = some w := by
  simp [log_log_stderr, hq]

theorem log_log_fp_eq (env : Env) (w : World) (level : Int) (file : CStr) (line : Int)
    (msg name : CStr) (hn : index level_names level = some name) :
    log_log_fp env w level file line msg
      = some { w with trace := w.trace ++ fpEvents env w.L name file line msg } := by
  by_cases hfp : w.L.fp = NULL
  · simp [log_log_fp, fpEvents, hfp]
  · cases hfi : w.L.config.fileinfo <;>
      simp [log_log_fp, fpEvents, sinkHead, timestamp, _log, hfp, hfi, hn, fprintf,
        vfprintf, fflush, vformat]

theorem log_log_fp_null (env : Env) (w : World) (level : Int) (file : CStr) (line : Int)
    (msg : CStr) (hfp : w.L.fp = NULL) :
    log_log_fp env w level file line msg = some w := by
  simp [log_log_fp, hfp]

/-- One emit that passes the gate, at a level inside the tables: the state
after it is the state before with the events of `lock`, the console block, the
sink block and `unlock` appended, in this order. -/
theorem log_log_eq (env : Env) (w : World) (level : Int) (file : CStr) (line : Int)
    (msg name color : CStr) (hmin : w.L.level ≤ level)
    (hn : index level_names level = some name)
    (hc : index level_colors level = some color) :
    log_log env w level file line msg
      = some { w with trace := w.trace ++ (lockEvents w.L 1
          ++ stderrEvents env w.L name color file line msg
          ++ fpEvents env w.L name file line msg ++ lockEvents w.L 0) } := by
  have hg : ¬ level < w.L.level := not_lt.mpr hmin
  by_cases hl : w.L.lock = NULL
  · simp [log_log, hg, lock, unlock, lockEvents, hl,
      log_log_stderr_eq env _ level file line msg name color hn hc,
      log_log_fp_eq env _ level file line msg name hn]
  · simp [log_log, hg, lock, unlock, lockEvents, hl,
      log_log_stderr_eq env _ level file line msg name color hn hc,
      log_log_fp_eq env _ level file line msg name hn]

/-- One emit that passes the gate with `quiet` set and no sink, at any level:
only the events of `lock` and `unlock` are appended. -/
theorem log_log_silent_eq (env : Env) (w : World) (level : Int) (file : CStr) (line : Int)
    (msg : CStr) (hmin : w.L.level ≤ level) (hq : w.L.config.quiet = true)
    (hfp : w.L.fp = NULL) :
    log_log env w level file line msg
      = some { w with trace := w.trace ++ (lockEvents w.L 1 ++ lockEvents w.L 0) } := by
  have hg : ¬ level < w.L.level := not_lt.mpr hmin
  by_cases hl : w.L.lock = NULL
  · simp [log_log, hg, lock, unlock, lockEvents, hl, log_log_stderr, log_log_fp, hq, hfp]
  · simp [log_log, hg, lock, unlock, lockEvents, hl, log_log_stderr, log_log_fp, hq, hfp]

/-! ## Gating -/

/-- C1. A call below the configured minimum level returns with the program
state exactly as it was: the same `L` and the same event sequence, hence no
write to `stderr`, no write to `L.fp` and no invocation of the lock callback. -/
theorem log_log_below_level (env : Env) (w : World) (level : Int) (file : CStr) (line : Int)
    (msg : CStr) (h : level < w.L.level) :
    log_log env w level file line msg = some w := by
  simp [log_log, h]

/-- C1 at a DEBUG call under minimum level INFO, with a lock callback and a sink set. -/
theorem log_log_below_level_witness :
    LOG_DEBUG < sampleWorld.L.level ∧
      log_log envPlain sampleWorld LOG_DEBUG "main.c".toList 42 "hello".toList
        = some sampleWorld :=
  ⟨by decide,
   log_log_below_level envPlain sampleWorld LOG_DEBUG "main.c".toList 42 "hello".toList
     (by decide)⟩

/-! ## Setters -/

/-- C2. `log_set_dateformat fmt` returns 0 exactly when `fmt` has fewer than 32
characters.  A format of at most 31 characters is stored as it is; a format of
32 or more characters gives -1 and the whole state is as before.  In both cases
every field other than `dateformat` and the event sequence are as before. -/
theorem log_set_dateformat_spec (w : World) (fmt : CStr) :
    ((log_set_dateformat w fmt).1 = 0 ↔ fmt.length < 32) ∧
    (fmt.length ≤ 31 →
      (log_set_dateformat w fmt).1 = 0 ∧ (log_set_dateformat w fmt).2.L.dateformat = fmt) ∧
    (32 ≤ fmt.length → log_set_dateformat w fmt = (-1, w)) ∧
    ((log_set_dateformat w fmt).2.L.udata = w.L.udata ∧
     (log_set_dateformat w fmt).2.L.lock = w.L.lock ∧
     (log_set_dateformat w fmt).2.L.fp = w.L.fp ∧
     (log_set_dateformat w fmt).2.L.level = w.L.level ∧
     (log_set_dateformat w fmt).2.L.config = w.L.config ∧
     (log_set_dateformat w fmt).2.trace = w.trace) := by
  by_cases h : 32 ≤ fmt.length
  · have h1 : ¬ fmt.length < 32 := by omega
    have h2 : ¬ fmt.length ≤ 31 := by omega
    simp [log_set_dateformat, strlen, DATEFORMAT_SIZE, h, h1, h2]
  · have h1 : fmt.length < 32 := by omega
    have h2 : fmt.length ≤ 31 := by omega
    simp [log_set_dateformat, strlen, DATEFORMAT_SIZE, h, h1, h2]

/-- C7. Each of the six plain setters writes its own field (the two flag
setters store true exactly for a non-zero argument), leaves every other field
and the event sequence as they were, and is idempotent. -/
theorem setters_frame (w : World) (p : Ptr) (n : Int) :
    ((log_set_udata w p).L.udata = p ∧ (log_set_udata w p).L.lock = w.L.lock ∧
      (log_set_udata w p).L.fp = w.L.fp ∧ (log_set_udata w p).L.dateformat = w.L.dateformat ∧
      (log_set_udata w p).L.level = w.L.level ∧ (log_set_udata w p).L.config = w.L.config ∧
      (log_set_udata w p).trace = w.trace ∧
      log_set_udata (log_set_udata w p) p = log_set_udata w p) ∧
    ((log_set_lock w p).L.lock = p ∧ (log_set_lock w p).L.udata = w.L.udata ∧
      (log_set_lock w p).L.fp = w.L.fp ∧ (log_set_lock w p).L.dateformat = w.L.dateformat ∧
      (log_set_lock w p).L.level = w.L.level ∧ (log_set_lock w p).L.config = w.L.config ∧
      (log_set_lock w p).trace = w.trace ∧
      log_set_lock (log_set_lock w p) p = log_set_lock w p) ∧
    ((log_set_fp w p).L.fp = p ∧ (log_set_fp w p).L.udata = w.L.udata ∧
      (log_set_fp w p).L.lock = w.L.lock ∧ (log_set_fp w p).L.dateformat = w.L.dateformat ∧
      (log_set_fp w p).L.level = w.L.level ∧ (log_set_fp w p).L.config = w.L.config ∧
      (log_set_fp w p).trace = w.trace ∧
      log_set_fp (log_set_fp w p) p = log_set_fp w p) ∧
    ((log_set_level w n).L.level = n ∧ (log_set_level w n).L.udata = w.L.udata ∧
      (log_set_level w n).L.lock = w.L.lock ∧ (log_set_level w n).L.fp = w.L.fp ∧
      (log_set_level w n).L.dateformat = w.L.dateformat ∧
      (log_set_level w n).L.config = w.L.config ∧
      (log_set_level w n).trace = w.trace ∧
      log_set_level (log_set_level w n) n = log_set_level w n) ∧
    (((log_set_quiet w n).L.config.quiet = true ↔ n ≠ 0) ∧
      (log_set_quiet w n).L.config.fileinfo = w.L.config.fileinfo ∧
      (log_set_quiet w n).L.udata = w.L.udata ∧ (log_set_quiet w n).L.lock = w.L.lock ∧
      (log_set_quiet w n).L.fp = w.L.fp ∧ (log_set_quiet w n).L.dateformat = w.L.dateformat ∧
      (log_set_quiet w n).L.level = w.L.level ∧
      (log_set_quiet w n).trace = w.trace ∧
      log_set_quiet (log_set_quiet w n) n = log_set_quiet w n) ∧
    (((log_set_fileinfo w n).L.config.fileinfo = true ↔ n ≠ 0) ∧
      (log_set_fileinfo w n).L.config.quiet = w.L.config.quiet ∧
      (log_set_fileinfo w n).L.udata = w.L.udata ∧ (log_set_fileinfo w n).L.lock = w.L.lock ∧
      (log_set_fileinfo w n).L.fp = w.L.fp ∧
      (log_set_fileinfo w n).L.dateformat = w.L.dateformat ∧
      (log_set_fileinfo w n).L.level = w.L.level ∧
      (log_set_fileinfo w n).trace = w.trace ∧
      log_set_fileinfo (log_set_fileinfo w n) n = log_set_fileinfo w n) := by
  refine ⟨?_, ?_, ?_, ?_, ?_, ?_⟩
  · simp [log_set_udata]
  · simp [log_set_lock]
  · simp [log_set_fp]
  · simp [log_set_level]
  · simp [log_set_quiet]
  · simp [log_set_fileinfo]

/-! ## Emission -/

theorem written_fp_stderrEvents (env : Env) (L : LState) (name color file : CStr) (line : Int)
    (msg : CStr) (p : Ptr) :
    written (Dest.fp p) (stderrEvents env L name color file line msg) = [] := by
  cases hq : L.config.quiet <;> simp [stderrEvents, hq, written]

theorem written_stderr_fpEvents (env : Env) (L : LState) (name file : CStr) (line : Int)
    (msg : CStr) :
    written Dest.stderr (fpEvents env L name file line msg) = [] := by
  by_cases hfp : L.fp = NULL <;> simp [fpEvents, hfp, written]

theorem written_lockEvents (d : Dest) (L : LState) (flag : Int) :
    written d (lockEvents L flag) = [] := by
  by_cases hl : L.lock = NULL <;> simp [lockEvents, hl, written]

theorem calls_stderrEvents (env : Env) (L : LState) (name color file : CStr) (line : Int)
    (msg : CStr) :
    calls (stderrEvents env L name color file line msg) = [] := by
  cases hq : L.config.quiet <;> simp [stderrEvents, hq, calls]

theorem calls_fpEvents (env : Env) (L : LState) (name file : CStr) (line : Int) (msg : CStr) :
    calls (fpEvents env L name file line msg) = [] := by
  by_cases hfp : L.fp = NULL <;> simp [fpEvents, hfp, calls]

/-- The bytes one emit adds to the sink, when a sink is set. -/
theorem written_fp_emit (env : Env) (L : LState) (name color file : CStr) (line : Int)
    (msg : CStr) (hfp : L.fp ≠ NULL) :
    written (Dest.fp L.fp) (lockEvents L 1 ++ stderrEvents env L name color file line msg
        ++ fpEvents env L name file line msg ++ lockEvents L 0)
      = sinkHead env L name file line ++ msg ++ "\n".toList := by
  simp [written_append, written_lockEvents, written_fp_stderrEvents, fpEvents, hfp, written]

/-- The bytes one emit adds to `stderr`, when `quiet` is off. -/
theorem written_stderr_emit (env : Env) (L : LState) (name color file : CStr) (line : Int)
    (msg : CStr) (hq : L.config.quiet = false) :
    written Dest.stderr (lockEvents L 1 ++ stderrEvents env L name color file line msg
        ++ fpEvents env L name file line msg ++ lockEvents L 0)
      = consoleHead env L name color file line ++ msg ++ "\n".toList := by
  simp [written_append, written_lockEvents, written_stderr_fpEvents, stderrEvents, hq, written]

/-- C3. Sink layout.  For a level in `TRACE..FATAL` that passes the gate, with a
sink set and a timestamp expansion of at most 31 characters, the emit succeeds
and appends to the sink the expansion, a space, the level name left-justified
to width 5, then ` file:line: ` when `fileinfo` is set and `: ` when it is not,
then the message and a newline.  The appended text does not depend on `quiet`:
it is the same after `log_set_quiet` with any argument. -/
theorem sink_layout (env : Env) (w : World) (level : Int) (file : CStr) (line : Int)
    (msg : CStr) (h0 : LOG_TRACE ≤ level) (h5 : level ≤ LOG_FATAL)
    (hmin : w.L.level ≤ level) (hfp : w.L.fp ≠ NULL)
    (hfit : (env.expand w.L.dateformat).length ≤ 31) :
    ∃ name, index level_names level = some name ∧
      ∀ enable : Int, ∃ w1 w2,
        log_log env w level file line msg = some w1 ∧
        log_log env (log_set_quiet w enable) level file line msg = some w2 ∧
        written (Dest.fp w.L.fp) w1.trace = written (Dest.fp w.L.fp) w2.trace ∧
        written (Dest.fp w.L.fp) w1.trace = written (Dest.fp w.L.fp) w.trace ++
          (if w.L.config.fileinfo = true then
            env.expand w.L.dateformat ++ " ".toList ++ pad5 name ++ " ".toList ++ file
              ++ ":".toList ++ fmt_d line ++ ": ".toList ++ msg ++ "\n".toList
          else
            env.expand w.L.dateformat ++ " ".toList ++ pad5 name ++ ": ".toList ++ msg
              ++ "\n".toList) := by
  obtain ⟨name, hn⟩ := index_level_names level h0 h5
  obtain ⟨color, hc⟩ := index_level_colors level h0 h5
  refine ⟨name, hn, fun enable => ?_⟩
  have hT : timestamp env 32 w.L = env.expand w.L.dateformat :=
    timestamp_fits env 32 w.L (by omega)
  have e1 := log_log_eq env w level file line msg name color hmin hn hc
  have e2 := log_log_eq env (log_set_quiet w enable) level file line msg name color hmin hn hc
  refine ⟨_, _, e1, e2, ?_, ?_⟩
  · have hfp2 : (log_set_quiet w enable).L.fp ≠ NULL := hfp
    have a1 := written_fp_emit env w.L name color file line msg hfp
    have a2 := written_fp_emit env (log_set_quiet w enable).L name color file line msg hfp2
    have hfpeq : (log_set_quiet w enable).L.fp = w.L.fp := rfl
    have htr : (log_set_quiet w enable).trace = w.trace := rfl
    rw [hfpeq] at a2
    simp only [written_append, htr] at a1 a2 ⊢
    rw [a1, a2]
    simp [sinkHead, timestamp, log_set_quiet]
  · have a1 := written_fp_emit env w.L name color file line msg hfp
    simp only [written_append] at a1 ⊢
    rw [a1]
    cases hfi : w.L.config.fileinfo <;> simp [sinkHead, hfi, hT]

/-- C4. Console layout without `LOG_USE_COLOR`.  For a level in `TRACE..FATAL`
that passes the gate with `quiet` off, the emit succeeds and appends to `stderr`
the console timestamp, a tab, the level name left-justified to width 5, a tab,
`file:line:`, a tab, the message and a newline.  The appended text is the same
after `log_set_fileinfo` with any argument. -/
theorem console_layout (env : Env) (w : World) (level : Int) (file : CStr) (line : Int)
    (msg : CStr) (hcol : env.LOG_USE_COLOR = false)
    (h0 : LOG_TRACE ≤ level) (h5 : level ≤ LOG_FATAL)
    (hmin : w.L.level ≤ level) (hq : w.L.config.quiet = false) :
    ∃ name, index level_names level = some name ∧
      ∀ enable : Int, ∃ w1 w2,
        log_log env w level file line msg = some w1 ∧
        log_log env (log_set_fileinfo w enable) level file line msg = some w2 ∧
        written Dest.stderr w2.trace = written Dest.stderr w1.trace ∧
        written Dest.stderr w1.trace = written Dest.stderr w.trace ++
          (terminated (strftime env 16 w.L.dateformat) ++ "\t".toList ++ pad5 name
            ++ "\t".toList ++ file ++ ":".toList ++ fmt_d line ++ ":".toList ++ "\t".toList
            ++ msg ++ "\n".toList) := by
  obtain ⟨name, hn⟩ := index_level_names level h0 h5
  obtain ⟨color, hc⟩ := index_level_colors level h0 h5
  refine ⟨name, hn, fun enable => ?_⟩
  have e1 := log_log_eq env w level file line msg name color hmin hn hc
  have e2 := log_log_eq env (log_set_fileinfo w enable) level file line msg name color hmin hn hc
  refine ⟨_, _, e1, e2, ?_, ?_⟩
  · have hq2 : (log_set_fileinfo w enable).L.config.quiet = false := hq
    have a1 := written_stderr_emit env w.L name color file line msg hq
    have a2 := written_stderr_emit env (log_set_fileinfo w enable).L name color file line msg hq2
    have htr : (log_set_fileinfo w enable).trace = w.trace := rfl
    simp only [written_append, htr] at a1 a2 ⊢
    rw [a1, a2]
    simp [consoleHead, timestamp, log_set_fileinfo]
  · have a1 := written_stderr_emit env w.L name color file line msg hq
    simp only [written_append] at a1 ⊢
    rw [a1]
    simp [consoleHead, hcol, timestamp]

/-- C6. Lock bracketing.  For an emit that passes the gate (at a level in
`TRACE..FATAL`, or at any level when `quiet` is set and there is no sink), there
is a list `out` of writes and flushes, containing no callback invocation and
empty when `quiet` is set and there is no sink, such that: with a callback set
the events added are the invocation `(udata, 1)`, then `out`, then the
invocation `(udata, 0)`; with no callback the events added are `out` alone. -/
theorem lock_bracketing (env : Env) (w : World) (level : Int) (file : CStr) (line : Int)
    (msg : CStr) (hmin : w.L.level ≤ level)
    (hdef : (LOG_TRACE ≤ level ∧ level ≤ LOG_FATAL) ∨
      (w.L.config.quiet = true ∧ w.L.fp = NULL)) :
    ∃ out : List Event,
      calls out = [] ∧
      (w.L.config.quiet = true ∧ w.L.fp = NULL → out = []) ∧
      (w.L.lock ≠ NULL →
        log_log env w level file line msg
          = some { w with trace := w.trace ++ ([Event.call w.L.lock w.L.udata 1] ++ out
              ++ [Event.call w.L.lock w.L.udata 0]) }) ∧
      (w.L.lock = NULL →
        log_log env w level file line msg = some { w with trace := w.trace ++ out }) := by
  by_cases hs : w.L.config.quiet = true ∧ w.L.fp = NULL
  · refine ⟨[], rfl, fun _ => rfl, ?_, ?_⟩
    · intro hl
      rw [log_log_silent_eq env w level file line msg hmin hs.1 hs.2]
      simp [lockEvents, hl]
    · intro hl
      rw [log_log_silent_eq env w level file line msg hmin hs.1 hs.2]
      simp [lockEvents, hl]
  · have hr : LOG_TRACE ≤ level ∧ level ≤ LOG_FATAL := by
      rcases hdef with h | h
      · exact h
      · exact absurd h hs
    obtain ⟨name, hn⟩ := index_level_names level hr.1 hr.2
    obtain ⟨color, hc⟩ := index_level_colors level hr.1 hr.2
    refine ⟨stderrEvents env w.L name color file line msg ++ fpEvents env w.L name file line msg,
      ?_, fun h => absurd h hs, ?_, ?_⟩
    · simp [calls_append, calls_stderrEvents, calls_fpEvents]
    · intro hl
      rw [log_log_eq env w level file line msg name color hmin hn hc]
      simp [lockEvents, hl]
    · intro hl
      rw [log_log_eq env w level file line msg name color hmin hn hc]
      simp [lockEvents, hl]

/-- C3 at the scenario of the specification: INFO, `fileinfo` off, the sink gets
`2024-01-01 10:00:00 INFO : hello` and a newline. -/
theorem sink_layout_witness :
    (LOG_TRACE ≤ LOG_INFO ∧ LOG_INFO ≤ LOG_FATAL ∧ sampleWorld.L.level ≤ LOG_INFO ∧
      sampleWorld.L.fp ≠ NULL ∧ (envPlain.expand sampleWorld.L.dateformat).length ≤ 31) ∧
    ∃ w1, log_log envPlain sampleWorld LOG_INFO "main.c".toList 42 "hello".toList = some w1 ∧
      written (Dest.fp 9) w1.trace = "2024-01-01 10:00:00 INFO : hello\n".toList := by
  refine ⟨by decide, ?_⟩
  obtain ⟨name, hn, h⟩ := sink_layout envPlain sampleWorld LOG_INFO "main.c".toList 42
    "hello".toList (by decide) (by decide) (by decide) (by decide) (by decide)
  obtain ⟨w1, _, e1, _, _, hw⟩ := h 0
  have hname : index level_names LOG_INFO = some "INFO".toList := by decide
  rw [hname] at hn
  have hname2 : name = "INFO".toList := (Option.some.inj hn).symm
  subst hname2
  have hw2 : written (Dest.fp 9) w1.trace = _ := hw
  exact ⟨w1, e1, hw2.trans (by decide)⟩

/-- C4 at an ERROR emit with the 8-character timestamp `10:00:00`. -/
theorem console_layout_witness :
    (envPlain.LOG_USE_COLOR = false ∧ LOG_TRACE ≤ LOG_ERROR ∧ LOG_ERROR ≤ LOG_FATAL ∧
      (log_set_dateformat sampleWorld "%H:%M:%S".toList).2.L.level ≤ LOG_ERROR ∧
      (log_set_dateformat sampleWorld "%H:%M:%S".toList).2.L.config.quiet = false) ∧
    ∃ w1, log_log envPlain (log_set_dateformat sampleWorld "%H:%M:%S".toList).2 LOG_ERROR
        "main.c".toList 42 "hello".toList = some w1 ∧
      written Dest.stderr w1.trace = "10:00:00\tERROR\tmain.c:42:\thello\n".toList := by
  refine ⟨by decide, ?_⟩
  obtain ⟨name, hn, h⟩ := console_layout envPlain
    (log_set_dateformat sampleWorld "%H:%M:%S".toList).2 LOG_ERROR "main.c".toList 42
    "hello".toList (by decide) (by decide) (by decide) (by decide) (by decide)
  obtain ⟨w1, _, e1, _, _, hw⟩ := h 1
  have hname : index level_names LOG_ERROR = some "ERROR".toList := by decide
  rw [hname] at hn
  have hname2 : name = "ERROR".toList := (Option.some.inj hn).symm
  subst hname2
  exact ⟨w1, e1, hw.trans (by decide)⟩

/-- C6 at a FATAL emit with `quiet` set and no sink: the two callback invocations
are the only events. -/
theorem lock_bracketing_witness :
    ((log_set_quiet (log_set_fp sampleWorld NULL) 1).L.level ≤ LOG_FATAL ∧
      ((LOG_TRACE ≤ LOG_FATAL ∧ LOG_FATAL ≤ LOG_FATAL) ∨
        ((log_set_quiet (log_set_fp sampleWorld NULL) 1).L.config.quiet = true ∧
          (log_set_quiet (log_set_fp sampleWorld NULL) 1).L.fp = NULL))) ∧
    ∃ w1, log_log envPlain (log_set_quiet (log_set_fp sampleWorld NULL) 1) LOG_FATAL
        "main.c".toList 42 "hello".toList = some w1 ∧
      w1.trace = [Event.call 7 11 1, Event.call 7 11 0] := by
  refine ⟨by decide, ?_⟩
  obtain ⟨out, _, hout, hl, _⟩ := lock_bracketing envPlain
    (log_set_quiet (log_set_fp sampleWorld NULL) 1) LOG_FATAL "main.c".toList 42
    "hello".toList (by decide) (by decide)
  have ho : out = [] := hout (by decide)
  subst ho
  exact ⟨_, hl (by decide), by decide⟩

/-! ## Timestamps and buffer sizes -/

/-- C5. The console loses a timestamp of 16 to 31 characters.  The 19-character
format `2024-01-01 10:00:00` is accepted by `log_set_dateformat` and expands to
itself, yet the console line of a WARN emit starts with the tab: the timestamp
is empty.  The same holds in the initial state, whose format
`%d-%m-%Y %H:%M:%S` expands to 19 characters; the sink of the same emit gets the
whole timestamp. -/
theorem console_timestamp_lost :
    (log_set_dateformat (log_set_fileinfo (log_set_level ⟨L_init, []⟩ LOG_WARN) 1)
      "2024-01-01 10:00:00".toList).1 = 0 ∧
    envPlain.expand scenarioWorld.L.dateformat = "2024-01-01 10:00:00".toList ∧
    (log_log envPlain scenarioWorld LOG_WARN "main.c".toList 42 "disk low".toList).map
      (fun w => written Dest.stderr w.trace) = some "\tWARN \tmain.c:42:\tdisk low\n".toList ∧
    envPlain.expand L_init.dateformat = "25-09-2024 10:00:00".toList ∧
    (log_log envPlain (log_set_fp ⟨L_init, []⟩ 9) LOG_WARN "main.c".toList 42
      "disk low".toList).map (fun w => written Dest.stderr w.trace)
      = some "\tWARN \tmain.c:42:\tdisk low\n".toList ∧
    (log_log envPlain (log_set_fp ⟨L_init, []⟩ 9) LOG_WARN "main.c".toList 42
      "disk low".toList).map (fun w => written (Dest.fp 9) w.trace)
      = some "25-09-2024 10:00:00 WARN : disk low\n".toList := by
  decide

/-- C9, as stated, fails.  The format `%A, %d %B %Y, %H:%M:%S` is accepted and
expands to the 38 characters `Wednesday, 25 September 2024, 10:00:00`; an
INFO emit then writes an empty timestamp to the sink and to the console, not
the first 31, respectively 15, characters of the expansion. -/
theorem truncation_counterexample :
    (log_set_dateformat sampleWorld "%A, %d %B %Y, %H:%M:%S".toList).1 = 0 ∧
    envPlain.expand longWorld.L.dateformat
      = "Wednesday, 25 September 2024, 10:00:00".toList ∧
    (log_log envPlain longWorld LOG_INFO "main.c".toList 42 "hello".toList).map
      (fun w => written (Dest.fp 9) w.trace) = some " INFO : hello\n".toList ∧
    (log_log envPlain longWorld LOG_INFO "main.c".toList 42 "hello".toList).map
      (fun w => written (Dest.fp 9) w.trace)
      ≠ some ((envPlain.expand longWorld.L.dateformat).take 31 ++ " INFO : hello\n".toList) ∧
    (log_log envPlain longWorld LOG_INFO "main.c".toList 42 "hello".toList).map
      (fun w => written Dest.stderr w.trace) = some "\tINFO \tmain.c:42:\thello\n".toList ∧
    (log_log envPlain longWorld LOG_INFO "main.c".toList 42 "hello".toList).map
      (fun w => written Dest.stderr w.trace)
      ≠ some ((envPlain.expand longWorld.L.dateformat).take 15
          ++ "\tINFO \tmain.c:42:\thello\n".toList) := by
  decide

/-- C9, amended.  For a level in `TRACE..FATAL` that passes the gate, when the
expansion of the format has 32 characters or more, the emit succeeds and the
timestamp of every destination is empty: the sink gets a space, the padded
level name, the call site when `fileinfo` is set, the message and a newline;
the console (without `LOG_USE_COLOR`) gets a tab, the padded level name, a tab,
`file:line:`, a tab, the message and a newline; and with or without color, the
state after the emit is the one a libc expanding every format to the empty
string produces. -/
theorem overlong_timestamp_empty (env : Env) (w : World) (level : Int) (file : CStr)
    (line : Int) (msg : CStr) (h0 : LOG_TRACE ≤ level) (h5 : level ≤ LOG_FATAL)
    (hmin : w.L.level ≤ level) (hlong : 32 ≤ (env.expand w.L.dateformat).length) :
    ∃ name w1, index level_names level = some name ∧
      log_log env w level file line msg = some w1 ∧
      (w.L.fp ≠ NULL →
        written (Dest.fp w.L.fp) w1.trace = written (Dest.fp w.L.fp) w.trace ++
          (if w.L.config.fileinfo = true then
            " ".toList ++ pad5 name ++ " ".toList ++ file ++ ":".toList ++ fmt_d line
              ++ ": ".toList ++ msg ++ "\n".toList
          else " ".toList ++ pad5 name ++ ": ".toList ++ msg ++ "\n".toList)) ∧
      (w.L.config.quiet = false → env.LOG_USE_COLOR = false →
        written Dest.stderr w1.trace = written Dest.stderr w.trace ++
          ("\t".toList ++ pad5 name ++ "\t".toList ++ file ++ ":".toList ++ fmt_d line
            ++ ":".toList ++ "\t".toList ++ msg ++ "\n".toList)) ∧
      log_log { env with expand := fun _ => [] } w level file line msg = some w1 := by
  obtain ⟨name, hn⟩ := index_level_names level h0 h5
  obtain ⟨color, hc⟩ := index_level_colors level h0 h5
  have hT32 : timestamp env 32 w.L = [] := timestamp_overflow env 32 w.L hlong
  have hT16 : timestamp env 16 w.L = [] := timestamp_overflow env 16 w.L (by omega)
  have e1 := log_log_eq env w level file line msg name color hmin hn hc
  refine ⟨name, _, hn, e1, ?_, ?_, ?_⟩
  · intro hfp
    have a1 := written_fp_emit env w.L name color file line msg hfp
    simp only [written_append] at a1 ⊢
    rw [a1]
    cases hfi : w.L.config.fileinfo <;> simp [sinkHead, hfi, hT32]
  · intro hq hcol
    have a1 := written_stderr_emit env w.L name color file line msg hq
    simp only [written_append] at a1 ⊢
    rw [a1]
    simp [consoleHead, hcol, hT16]
  · rw [log_log_eq { env with expand := fun _ => [] } w level file line msg name color hmin hn hc]
    have z32 : timestamp { env with expand := fun _ => [] } 32 w.L = [] := by
      simp [timestamp, terminated, strftime]
    have z16 : timestamp { env with expand := fun _ => [] } 16 w.L = [] := by
      simp [timestamp, terminated, strftime]
    simp [stderrEvents, fpEvents, consoleHead, sinkHead, hT32, hT16, z32, z16]

/-- C9, amended, at an INFO emit whose timestamp expands to 38 characters. -/
theorem overlong_timestamp_empty_witness :
    (LOG_TRACE ≤ LOG_INFO ∧ LOG_INFO ≤ LOG_FATAL ∧ longWorld.L.level ≤ LOG_INFO ∧
      32 ≤ (envPlain.expand longWorld.L.dateformat).length) ∧
    ∃ w1, log_log envPlain longWorld LOG_INFO "main.c".toList 42 "hello".toList = some w1 ∧
      written (Dest.fp 9) w1.trace = " INFO : hello\n".toList ∧
      written Dest.stderr w1.trace = "\tINFO \tmain.c:42:\thello\n".toList := by
  refine ⟨by decide, ?_⟩
  obtain ⟨name, w1, hn, e1, hs, hc, _⟩ := overlong_timestamp_empty envPlain longWorld LOG_INFO
    "main.c".toList 42 "hello".toList (by decide) (by decide) (by decide) (by decide)
  have hname : index level_names LOG_INFO = some "INFO".toList := by decide
  rw [hname] at hn
  have hname2 : name = "INFO".toList := (Option.some.inj hn).symm
  subst hname2
  have hs2 : written (Dest.fp 9) w1.trace = _ := hs (by decide)
  exact ⟨w1, e1, hs2.trans (by decide), (hc (by decide) (by decide)).trans (by decide)⟩

/-! ## Colored console line -/

/-- C10. With `LOG_USE_COLOR`, an INFO emit writes to the console the timestamp,
a tab, the color escape, the padded level name, a tab, the reset, a space, the
gray escape, `file:line:`, the reset, a tab, the message and a newline.  This is
not the line of the specification, whose escapes deleted give the console line
built without `LOG_USE_COLOR`: deleting the escapes of the line the code writes
leaves a space in front of `file:line:` that the plain console line does not
have. -/
theorem colored_line_extra_space :
    (log_log envColor shortWorld LOG_INFO "main.c".toList 42 "hello".toList).map
      (fun w => written Dest.stderr w.trace)
      = some "10:00:00\t\x1b[32mINFO \t\x1b[0m \x1b[90mmain.c:42:\x1b[0m\thello\n".toList ∧
    (log_log envColor shortWorld LOG_INFO "main.c".toList 42 "hello".toList).map
      (fun w => written Dest.stderr w.trace)
      ≠ some (coloredLineSpec "10:00:00".toList "\x1b[32m".toList "INFO".toList "main.c".toList
          42 "hello".toList) ∧
    (log_log envPlain shortWorld LOG_INFO "main.c".toList 42 "hello".toList).map
      (fun w => written Dest.stderr w.trace)
      = some "10:00:00\tINFO \tmain.c:42:\thello\n".toList ∧
    stripAnsi (coloredLineSpec "10:00:00".toList "\x1b[32m".toList "INFO".toList
        "main.c".toList 42 "hello".toList)
      = "10:00:00\tINFO \tmain.c:42:\thello\n".toList ∧
    (log_log envColor shortWorld LOG_INFO "main.c".toList 42 "hello".toList).map
      (fun w => stripAnsi (written Dest.stderr w.trace))
      = some "10:00:00\tINFO \t main.c:42:\thello\n".toList ∧
    (log_log envColor shortWorld LOG_INFO "main.c".toList 42 "hello".toList).map
      (fun w => stripAnsi (written Dest.stderr w.trace))
      ≠ (log_log envPlain shortWorld LOG_INFO "main.c".toList 42 "hello".toList).map
        (fun w => written Dest.stderr w.trace) := by
  decide

end LogC
